import Mathlib

/-!
Verification of the backend core of the financial-scam-detector repository.

The development shallowly embeds the Python backend modules
`detectors/risk_scorer.py`, `detectors/email_phishing_detector.py`,
`detectors/url_phishing_detector.py` and `utils/domain_checker.py`.
Python floats are modelled as exact rationals (the scores are sums and
quotients of decimal literals); the Shannon-entropy value, which uses
a real logarithm, is modelled over the reals.  Python dicts are
modelled as association lists; a stored `None` is `none`, a missing
key is absence from the list.  Code paths that raise a Python
exception to the caller are modelled with `Except Unit`.
-/

namespace ScamDetector

/-- Case analysis on an optional value, written as a function so that
proofs can evaluate it by rewriting. -/
def optCase (o : Option α) (d : β) (f : α → β) : β :=
  match o with
  | none => d
  | some v => f v

@[simp] theorem optCase_none (d : β) (f : α → β) : optCase none d f = d := rfl

@[simp] theorem optCase_some (v : α) (d : β) (f : α → β) : optCase (some v) d f = f v := rfl

/-- Sequencing of fallible computations (Python exception propagation). -/
def exBind (e : Except Unit α) (f : α → Except Unit β) : Except Unit β :=
  match e with
  | .error u => .error u
  | .ok v => f v

@[simp] theorem exBind_error (u : Unit) (f : α → Except Unit β) :
    exBind (.error u) f = .error u := rfl

@[simp] theorem exBind_ok (v : α) (f : α → Except Unit β) :
    exBind (.ok v) f = f v := rfl

/-! ### Risk scorer (detectors/risk_scorer.py)

A signal dict maps string keys to float-or-None values, exactly like
the dict built in `app.py` and consumed by `RiskScorer.calculate`. -/

abbrev SignalDict := List (String × Option ℚ)

/-- Dict lookup: `some v` when the key is present with stored value `v`
(`v` itself is an `Option` since Python stores `None`), `none` when the
key is missing. -/
def dictFind (d : SignalDict) (k : String) : Option (Option ℚ) :=
  match d with
  | [] => none
  | (k', v) :: rest => if k' = k then some v else dictFind rest k

/-- Python `signals.get(name)`: a missing key and a stored `None` both
give `None`. -/
def getSignal (d : SignalDict) (k : String) : Option ℚ :=
  optCase (dictFind d k) none (fun v => v)

/-- Python `signals.get(name, 0)` followed by a numeric comparison: the
default `0` is used only when the key is missing; a stored `None` is
returned as-is, and comparing `None` with a float raises `TypeError`,
modelled as `Except.error`. -/
def getNum (d : SignalDict) (k : String) : Except Unit ℚ :=
  optCase (dictFind d k) (.ok 0) (fun stored => optCase stored (.error ()) (fun q => .ok q))

/-- Result record of `RiskScorer.calculate`. -/
structure RiskResult where
  risk_score : ℚ
  risk_level : String
  explanation : String
  confidence : ℚ
  deriving Repr, DecidableEq

/-- The weight table `RiskScorer.weights`, in insertion order. -/
def weights0 : List (String × ℚ) :=
  [("websiteTrust", 0.25), ("urlPhishing", 0.20), ("financialIntent", 0.30),
   ("otpMisuse", 0.15), ("upiScam", 0.10)]

/-- The signal loop of `calculate` (lines 55-67): accumulate
`total_score` and `total_weight` over the present signals, inverting
`websiteTrust`. -/
def weightedFold (ws : List (String × ℚ)) (signals : SignalDict) (acc : ℚ × ℚ) : ℚ × ℚ :=
  match ws with
  | [] => acc
  | (name, w) :: rest =>
    optCase (getSignal signals name)
      (weightedFold rest signals acc)
      (fun v => weightedFold rest signals
        (acc.1 + (if name = "websiteTrust" then 1 - v else v) * w, acc.2 + w))

/-- `RiskScorer._generate_explanation`, sequencing the `signals.get(_, 0)`
comparisons in Python evaluation order (a stored `None` raises). -/
def genExplanation (risk_level : String) (signals : SignalDict) : Except Unit String :=
  if risk_level = "high" then
    exBind (getNum signals "upiScam") (fun upi =>
      if upi > 0.7 then
        .ok "⚠️ HIGH RISK - DO NOT PROCEED. This appears to be a UPI scam. We strongly recommend leaving this website."
      else
        exBind (getNum signals "otpMisuse") (fun otp =>
          if otp > 0.7 then
            .ok "⚠️ HIGH RISK - DO NOT PROCEED. This site is asking for sensitive information but is not trustworthy. We strongly recommend leaving this website."
          else
            exBind (getNum signals "urlPhishing") (fun url =>
              if url > 0.7 then
                .ok "⚠️ HIGH RISK - DO NOT PROCEED. The URL shows strong phishing indicators. We strongly recommend leaving this website."
              else
                .ok "⚠️ HIGH RISK - DO NOT PROCEED. We strongly recommend leaving this website.")))
  else if risk_level = "medium" then
    exBind (getNum signals "financialIntent") (fun fi =>
      if fi > 0.5 then
        .ok "⚠️ CAUTION ADVISED. This page involves financial activity. Verify the website authenticity before proceeding."
      else
        .ok "⚠️ CAUTION ADVISED. Verify the website authenticity before proceeding.")
  else
    .ok ""

/-- Number of dict values that are not `None`
(`sum(1 for v in signals.values() if v is not None)`). -/
def countNonNone (signals : SignalDict) : ℕ :=
  (signals.filter (fun p => p.2.isSome)).length

/-- Lines 74-94 of `calculate`: financial-intent amplification, level
thresholds, explanation and confidence.  Everything after the signal
loop depends on the loop only through `total_score / total_weight`,
passed here as `base`. -/
def riskPost (base : ℚ) (nWeights : ℕ) (signals : SignalDict) : Except Unit RiskResult :=
  exBind (getNum signals "financialIntent") (fun fi =>
    let score := if fi > 0.5 then min (base * 1.3) 1 else base
    exBind
      (if score ≥ 0.7 then
        exBind (genExplanation "high" signals) (fun e => .ok ("high", e))
      else if score ≥ 0.4 then
        exBind (genExplanation "medium" signals) (fun e => .ok ("medium", e))
      else
        .ok ("low", "This page appears safe based on our analysis."))
      (fun le =>
        .ok { risk_score := score, risk_level := le.1, explanation := le.2,
              confidence := (countNonNone signals : ℚ) / (nWeights : ℚ) }))

/-- `RiskScorer.calculate` with an explicit weight table (the table is
built once in `__init__`; making it a parameter lets us state the
weight-rescaling property). -/
def riskCalculateW (ws : List (String × ℚ)) (signals : SignalDict) : Except Unit RiskResult :=
  let acc := weightedFold ws signals (0, 0)
  riskPost (if acc.2 > 0 then acc.1 / acc.2 else 0) ws.length signals

/-- `RiskScorer.calculate` with the weight table of `__init__`. -/
def riskCalculate (signals : SignalDict) : Except Unit RiskResult :=
  riskCalculateW weights0 signals

/-- A successful `exBind` decomposes into a successful step and a
successful continuation. -/
theorem exBind_eq_ok_iff {e : Except Unit α} {f : α → Except Unit β} {b : β} :
    exBind e f = .ok b ↔ ∃ a, e = .ok a ∧ f a = .ok b := by
  cases e <;> simp [exBind]

/-! ### Domain checker (utils/domain_checker.py)

`DomainChecker.check_age` receives the record produced by the external
WHOIS collaborator.  `none` models a lookup that raised; the
`creation_date` attribute can be absent, a single timestamp or a list
of timestamps.  Timestamps are integers (seconds); `datetime.now()` is
the explicit `now` argument and `timedelta.days` is floor division by
86400. -/

inductive CreationVal
  | missing
  | ts (t : ℤ)
  | many (l : List ℤ)
  deriving Repr, DecidableEq

structure WhoisRec where
  creation_date : CreationVal
  registrar : Option String
  deriving Repr, DecidableEq

structure AgeRes where
  age_days : ℤ
  is_new : Bool
  registration_date : Option ℤ
  registrar : Option String
  deriving Repr, DecidableEq

/-- Lines 47-51: `creation_date[0]` when WHOIS returned a list; indexing
an empty list raises `IndexError` (caught by the surrounding handler). -/
def firstCreation : CreationVal → Except Unit (Option ℤ)
  | .missing => .ok none
  | .ts t => .ok (some t)
  | .many [] => .error ()
  | .many (t :: _) => .ok (some t)

/-- The defaults of `check_age`, also re-imposed by its except handler. -/
def defaultAgeRes : AgeRes :=
  { age_days := -1, is_new := false, registration_date := none, registrar := none }

/-- `DomainChecker.check_age`: age in days from the creation timestamp,
`is_new := age.days < 90` (the threshold set in `__init__`), defaults on
an absent record, an absent creation date or an exception. -/
def checkAge (now : ℤ) (w : Option WhoisRec) : AgeRes :=
  match w with
  | none => defaultAgeRes
  | some rcd =>
    match firstCreation rcd.creation_date with
    | .error _ => defaultAgeRes
    | .ok none => defaultAgeRes
    | .ok (some t) =>
      let days := (now - t).fdiv 86400
      { age_days := days, is_new := decide (days < 90),
        registration_date := some t, registrar := rcd.registrar }

/-- A record that yields a usable creation timestamp. -/
def hasCreation (w : Option WhoisRec) : Bool :=
  match w with
  | none => false
  | some rcd =>
    match firstCreation rcd.creation_date with
    | .ok (some _) => true
    | _ => false

/-- The weight table scaled by a constant. -/
def scaleWeights (c : ℚ) (ws : List (String × ℚ)) : List (String × ℚ) :=
  ws.map (fun p => (p.1, c * p.2))

/-! ### Signal bundles for the fusion properties

A bundle in the sense of the spec data model: each of the five signal
names either carries a float or is absent.  `toDict` realizes it as the
dict handed to calculate, with absent signals having no key. -/

structure SB where
  wt : Option ℚ
  up : Option ℚ
  fi : Option ℚ
  om : Option ℚ
  us : Option ℚ

inductive Sig
  | wt
  | up
  | fi
  | om
  | us

def SB.toDict (b : SB) : SignalDict :=
  optCase b.wt [] (fun v => [("websiteTrust", some v)])
  ++ optCase b.up [] (fun v => [("urlPhishing", some v)])
  ++ optCase b.fi [] (fun v => [("financialIntent", some v)])
  ++ optCase b.om [] (fun v => [("otpMisuse", some v)])
  ++ optCase b.us [] (fun v => [("upiScam", some v)])

/-- The `total_score` accumulated by the signal loop on a bundle. -/
def SB.tscore (b : SB) : ℚ :=
  optCase b.wt 0 (fun v => (1 - v) * 0.25) + optCase b.up 0 (fun v => v * 0.20)
  + optCase b.fi 0 (fun v => v * 0.30) + optCase b.om 0 (fun v => v * 0.15)
  + optCase b.us 0 (fun v => v * 0.10)

/-- The `total_weight` accumulated by the signal loop on a bundle. -/
def SB.tweight (b : SB) : ℚ :=
  optCase b.wt 0 (fun _ => (0.25 : ℚ)) + optCase b.up 0 (fun _ => (0.20 : ℚ))
  + optCase b.fi 0 (fun _ => (0.30 : ℚ)) + optCase b.om 0 (fun _ => (0.15 : ℚ))
  + optCase b.us 0 (fun _ => (0.10 : ℚ))

/-- The guarded weighted average of calculate on a bundle. -/
def SB.base (b : SB) : ℚ :=
  if SB.tweight b > 0 then SB.tscore b / SB.tweight b else 0

/-- The final risk score of calculate on a bundle: the weighted average
amplified by 1.3 and clamped at 1 when financialIntent exceeds 0.5. -/
def SB.score (b : SB) : ℚ :=
  if optCase b.fi 0 (fun q => q) > 0.5 then min (SB.base b * 1.3) 1 else SB.base b

def SB.getSig : Sig → SB → Option ℚ
  | .wt, b => b.wt
  | .up, b => b.up
  | .fi, b => b.fi
  | .om, b => b.om
  | .us, b => b.us

def SB.setSig : Sig → ℚ → SB → SB
  | .wt, v, b => { b with wt := some v }
  | .up, v, b => { b with up := some v }
  | .fi, v, b => { b with fi := some v }
  | .om, v, b => { b with om := some v }
  | .us, v, b => { b with us := some v }

/-- The normalization step of calculate: websiteTrust is inverted, the
other signals pass through. -/
def normSig : Sig → ℚ → ℚ
  | .wt, v => 1 - v
  | .up, v => v
  | .fi, v => v
  | .om, v => v
  | .us, v => v

/-- A present value lies in the unit interval. -/
def okv (o : Option ℚ) : Prop := optCase o True (fun v => 0 ≤ v ∧ v ≤ 1)

/-- All present signals of the bundle lie in the unit interval. -/
def SBok (b : SB) : Prop := okv b.wt ∧ okv b.up ∧ okv b.fi ∧ okv b.om ∧ okv b.us

/-! ### Email detector (detectors/email_phishing_detector.py)

The pattern lists are Python regexes using literals, non-capturing
groups, alternation, greedy option and greedy one-or-more digits.  The
engine below implements exactly these constructs with the backtracking
priority of `re` (leftmost position, left-first alternation, greedy
quantifiers) and returns `match.group(0)`.  Texts are ASCII, matching
is on the lower-cased text, so case-insensitive matching of the
lower-case patterns coincides with plain matching. -/

def isDigitC (c : Char) : Bool := decide ('0' ≤ c) && decide (c ≤ '9')

inductive Rgx
  | lit (s : String)
  | dig
  | digits
  | seq (a b : Rgx)
  | alt (a b : Rgx)
  | opt (a : Rgx)
  deriving Repr

def isPrefixL : List Char → List Char → Bool
  | [], _ => true
  | _ :: _, [] => false
  | a :: as, b :: bs => a == b && isPrefixL as bs

/-- Length of the maximal digit run at the head of the list. -/
def digitRun : List Char → ℕ
  | [] => 0
  | c :: t => if isDigitC c then digitRun t + 1 else 0

/-- Remainders after matching the pattern at the head of the list, in
backtracking priority order (greedy, left-first), as in Python `re`. -/
def rgxRem : Rgx → List Char → List (List Char)
  | .lit s, l => if isPrefixL s.data l then [l.drop s.data.length] else []
  | .dig, l =>
    match l with
    | [] => []
    | c :: t => if isDigitC c then [t] else []
  | .digits, l => (List.range (digitRun l)).map (fun i => l.drop (digitRun l - i))
  | .seq a b, l => (rgxRem a l).flatMap (rgxRem b)
  | .alt a b, l => rgxRem a l ++ rgxRem b l
  | .opt a, l => rgxRem a l ++ [l]

/-- Leftmost search as in `re.search`: at the first position where the
pattern matches, take the highest-priority match and return its
`group(0)` text. -/
def searchGroup (r : Rgx) : List Char → Option (List Char)
  | [] =>
    match rgxRem r [] with
    | _ :: _ => some []
    | [] => none
  | c :: t =>
    match rgxRem r (c :: t) with
    | rem :: _ => some ((c :: t).take ((c :: t).length - rem.length))
    | [] => searchGroup r t

/-- `_find_patterns`: for each pattern, in declaration order, append the
first match's text when the pattern matches. -/
def findPatterns (text : List Char) (patterns : List Rgx) : List String :=
  patterns.filterMap (fun p => (searchGroup p text).map (fun m => String.mk m))

/-- The apostrophe character. -/
def apos : Char := Char.ofNat 39

/-- `EmailPhishingDetector.urgency_patterns`. -/
def urgencyPatterns : List Rgx :=
  [.seq (.lit "urgent") (.opt (.lit "ly")),
   .seq (.lit "immediate") (.opt (.lit "ly")),
   .lit "act now",
   .seq (.lit "within ") (.seq .digits (.seq (.lit " hour") (.opt (.lit "s")))),
   .seq (.lit "expire") (.seq (.opt (.lit "s"))
     (.seq (.lit " ") (.alt (.lit "today") (.alt (.lit "soon") (.lit "now"))))),
   .lit "limited time",
   .seq (.lit "account ") (.seq (.opt (.alt (.lit "will be ") (.lit "has been ")))
     (.alt (.lit "suspended") (.alt (.lit "closed") (.lit "blocked")))),
   .seq (.lit "verify ") (.alt (.lit "immediately") (.alt (.lit "now") (.lit "your account"))),
   .lit "action required",
   .lit "security alert",
   .lit "unusual activity"]

/-- `EmailPhishingDetector.fear_patterns`. -/
def fearPatterns : List Rgx :=
  [.lit "blocked",
   .lit "frozen",
   .lit "compromised",
   .lit "unauthorized",
   .lit "suspicious activity",
   .seq (.lit "fraud") (.seq (.opt (.lit "ulent"))
     (.seq (.lit " ") (.alt (.lit "activity") (.lit "transaction")))),
   .lit "legal action",
   .lit "lose access",
   .seq (.lit "permanent") (.opt (.lit "ly")),
   .seq (.lit "cancel") (.opt (.alt (.lit "led") (.lit "lation")))]

/-- `EmailPhishingDetector.reward_patterns`. -/
def rewardPatterns : List Rgx :=
  [.lit "won",
   .lit "winner",
   .lit "prize",
   .lit "reward",
   .seq (.lit "cash") (.seq (.opt (.lit " ")) (.lit "back")),
   .lit "free",
   .seq (.lit "claim ") (.alt (.lit "now") (.lit "your")),
   .lit "congratulations",
   .seq (.lit "you") (.seq (.alt (.lit (String.mk [apos, 'v', 'e'])) (.lit " have"))
     (.lit " been selected")),
   .lit "lottery",
   .lit "bonus",
   .lit "gift card"]

/-- `EmailPhishingDetector.bank_keywords`. -/
def bankKeywords : List String :=
  ["bank", "banking", "account", "netbanking", "internet banking",
   "upi", "paytm", "phonepe", "gpay", "google pay",
   "transaction", "payment", "otp", "cvv", "debit", "credit"]

/-- Substring test, Python `needle in hay`. -/
def containsL (needle : List Char) : List Char → Bool
  | [] => isPrefixL needle []
  | c :: t => isPrefixL needle (c :: t) || containsL needle t

def strContains (hay : List Char) (needle : String) : Bool := containsL needle.data hay

/-- The known-domain table of `_check_sender_domain_mismatch`, in
insertion order. -/
def banks : List (String × List String) :=
  [("sbi", ["sbi.co.in"]), ("hdfc", ["hdfcbank.com"]), ("icici", ["icicibank.com"]),
   ("axis", ["axisbank.com"]), ("paytm", ["paytm.com"]), ("phonepe", ["phonepe.com"])]

/-- `_check_sender_domain_mismatch`: the first bank whose name occurs in
the text while no known domain occurs in the sender domain, as
(claimed, actual, expected). -/
def checkSenderMismatch (text : List Char) (sender_domain : String) :
    Option (String × String × String) :=
  (banks.find? (fun p =>
      strContains text p.1 && !(p.2.any (fun vd => strContains sender_domain.data vd)))).map
    (fun p => (p.1.toUpper, sender_domain, p.2.headD ""))

/-- ASCII lower-casing (all texts involved are ASCII). -/
def lowerC (c : Char) : Char :=
  if decide ('A' ≤ c) && decide (c ≤ 'Z') then Char.ofNat (c.toNat + 32) else c

/-- Result record of `EmailPhishingDetector.analyze`; the four match
lists are the entries of `pattern_matches`. -/
structure EmailResult where
  phishing_score : ℚ
  is_phishing : Bool
  reasons : List String
  urgency : List String
  fear : List String
  reward : List String
  financial : List String
  deriving Repr, DecidableEq

/-- `EmailPhishingDetector.analyze`.  The optional ML opinion stands for
the external classifier (label, score); `none` models the absent
classifier. -/
def emailAnalyze (subject body : String) (sender_domain : Option String)
    (ml : Option (String × ℚ)) : EmailResult :=
  let text := (subject ++ " " ++ body).data.map lowerC
  let urgency_matches := findPatterns text urgencyPatterns
  let fear_matches := findPatterns text fearPatterns
  let reward_matches := findPatterns text rewardPatterns
  let financial_keywords := bankKeywords.filter (fun kw => strContains text kw)
  let score1 : ℚ := if urgency_matches.isEmpty then 0 else 0 + 0.3
  let reasons1 : List String :=
    if urgency_matches.isEmpty then [] else
      ["Urgency tactics detected: " ++ String.intercalate ", " (urgency_matches.take 2)]
  let score2 := if fear_matches.isEmpty then score1 else score1 + 0.3
  let reasons2 := reasons1 ++
    (if fear_matches.isEmpty then [] else
      ["Fear/threat language: " ++ String.intercalate ", " (fear_matches.take 2)])
  let score3 := if reward_matches.isEmpty then score2 else score2 + 0.25
  let reasons3 := reasons2 ++
    (if reward_matches.isEmpty then [] else
      ["Reward/prize language: " ++ String.intercalate ", " (reward_matches.take 2)])
  let score4 := if financial_keywords.isEmpty then score3 else score3 + 0.15
  let reasons4 := reasons3 ++
    (if financial_keywords.isEmpty then [] else
      if 3 ≤ financial_keywords.length then ["Multiple financial keywords detected"] else [])
  let mism := optCase sender_domain none
    (fun sd => if sd.length = 0 then none else checkSenderMismatch text sd)
  let score5 := optCase mism score4 (fun _ => score4 + 0.4)
  let reasons5 := reasons4 ++ optCase mism []
    (fun m => ["Sender domain mismatch: claims to be " ++ m.1 ++ " but from " ++ m.2.1])
  let score6 := optCase ml score5
    (fun mr => if mr.1 = "NEGATIVE" ∧ mr.2 > 0.7 then score5 + 0.2 else score5)
  let reasons6 := reasons5 ++ optCase ml []
    (fun mr => if mr.1 = "NEGATIVE" ∧ mr.2 > 0.7 then ["ML model detected suspicious content"] else [])
  { phishing_score := min score6 1,
    is_phishing := decide (min score6 1 > 0.5),
    reasons := reasons6,
    urgency := urgency_matches,
    fear := fear_matches,
    reward := reward_matches,
    financial := financial_keywords }

/-! ### URL detector (detectors/url_phishing_detector.py)

`urlparse` is modelled by the netloc/path extraction of CPython
`urlsplit`: optional scheme prefix, netloc after a leading `//` up to
the next `/`, `?` or `#`, and a `ValueError` for a bracket that is not
matched (the Invalid IPv6 URL check); the path stops at `?` or `#`.
Shannon entropy uses the real logarithm, so the feature dict stores one
real-valued entry; everything else is exact.  The shipped detector
never assigns a model (`_try_load_model` only logs), so the ML blend
branch of `analyze` is dead code and does not appear. -/

/-- Case analysis on a fallible value. -/
def exCase (e : Except Unit α) (d : β) (f : α → β) : β :=
  match e with
  | .error _ => d
  | .ok v => f v

@[simp] theorem exCase_error (u : Unit) (d : β) (f : α → β) :
    exCase (.error u) d f = d := rfl

@[simp] theorem exCase_ok (v : α) (d : β) (f : α → β) :
    exCase (.ok v) d f = f v := rfl

def isSchemeChar (c : Char) : Bool := c.isAlphanum || c == '+' || c == '-' || c == '.'

/-- Strip a leading `scheme:` when the prefix before the first colon is
a well-formed scheme. -/
def splitScheme (cs : List Char) : List Char :=
  match cs.findIdx? (fun c => c == ':') with
  | some i =>
    if 0 < i ∧ (cs.headD ' ').isAlpha = true ∧ (cs.take i).all isSchemeChar = true then
      cs.drop (i + 1)
    else cs
  | none => cs

/-- Split at the first of the stop characters. -/
def takeUntilAny (stops : List Char) : List Char → List Char × List Char
  | [] => ([], [])
  | c :: t =>
    if stops.contains c then ([], c :: t)
    else
      let p := takeUntilAny stops t
      (c :: p.1, p.2)

/-- The (netloc, path) part of CPython urlsplit; `Except.error` models
the `ValueError` raised on an unbalanced bracket in the netloc. -/
def urlparseNP (url : String) : Except Unit (String × String) :=
  let rest := splitScheme url.data
  if isPrefixL ['/', '/'] rest then
    let nl := takeUntilAny ['/', '?', '#'] (rest.drop 2)
    if (nl.1.contains '[' && !nl.1.contains ']') || (nl.1.contains ']' && !nl.1.contains '[') then
      .error ()
    else
      .ok (String.mk nl.1, String.mk (takeUntilAny ['?', '#'] nl.2).1)
  else
    .ok ("", String.mk (takeUntilAny ['?', '#'] rest).1)

/-- A value of the Python feature dict: int, bool, string or float. -/
inductive FVal
  | i (n : ℤ)
  | b (v : Bool)
  | s (v : String)
  | r (v : ℝ)

/-- Feature-dict lookup. -/
def lookupF : List (String × FVal) → String → Option FVal
  | [], _ => none
  | (k', v) :: rest, k => if k' = k then some v else lookupF rest k

def fvalI : FVal → Except Unit ℤ
  | .i n => .ok n
  | _ => .error ()

def fvalB : FVal → Except Unit Bool
  | .b v => .ok v
  | _ => .error ()

def fvalS : FVal → Except Unit String
  | .s v => .ok v
  | _ => .error ()

def fvalR : FVal → Except Unit ℝ
  | .r v => .ok v
  | _ => .error ()

/-- `features[k]` read as an int: `KeyError` when the key is missing. -/
def getI (d : List (String × FVal)) (k : String) : Except Unit ℤ :=
  optCase (lookupF d k) (.error ()) fvalI

def getB (d : List (String × FVal)) (k : String) : Except Unit Bool :=
  optCase (lookupF d k) (.error ()) fvalB

def getS (d : List (String × FVal)) (k : String) : Except Unit String :=
  optCase (lookupF d k) (.error ()) fvalS

def getR (d : List (String × FVal)) (k : String) : Except Unit ℝ :=
  optCase (lookupF d k) (.error ()) fvalR

/-- Python `str.split(sep)` for a one-character separator: the empty
string yields one empty part, and every separator starts a new part. -/
def splitOnC (sep : Char) : List Char → List (List Char)
  | [] => [[]]
  | c :: t =>
    let r := splitOnC sep t
    if c = sep then [] :: r
    else
      match r with
      | [] => [[c]]
      | h :: t2 => (c :: h) :: t2

/-- `URLPhishingDetector.suspicious_tlds`. -/
def suspiciousTlds : List String :=
  ["tk", "ml", "ga", "cf", "gq", "pw", "cc", "top",
   "work", "click", "loan", "racing", "men", "download"]

/-- The dotted-quad pattern of `_extract_features`; a bounded repetition
d{1,3} is written d d? d?, which denotes the same language. -/
def d13 : Rgx := .seq .dig (.seq (.opt .dig) (.opt .dig))

def ipRgx : Rgx :=
  .seq d13 (.seq (.lit ".") (.seq d13 (.seq (.lit ".") (.seq d13 (.seq (.lit ".") d13)))))

/-- `_calculate_entropy`: Shannon entropy in bits per character of the
character-frequency distribution; 0.0 for the empty string.  The sum
ranges over the distinct characters (Counter keys). -/
noncomputable def entropyR (s : String) : ℝ :=
  if s.data = [] then 0
  else
    -((s.data.dedup).map (fun c =>
        ((s.data.count c : ℝ) / (s.data.length : ℝ))
          * Real.logb 2 ((s.data.count c : ℝ) / (s.data.length : ℝ)))).sum

/-- `_get_default_features`: the record produced on an extraction
error.  It carries only five of the keys `analyze` reads. -/
def defaultFeatures : List (String × FVal) :=
  [("length", .i 0), ("num_dots", .i 0), ("has_ip", .b false),
   ("suspicious_tld", .b false), ("domain_entropy", .r 0)]

/-- `_extract_features`: the full feature dict on a successful parse,
the default record when `urlparse` raises. -/
noncomputable def extractFeatures (url : String) : List (String × FVal) :=
  exCase (urlparseNP url) defaultFeatures (fun dp =>
    let domain := dp.1
    let path := dp.2
    let tld := if strContains domain.data "." then
        String.mk ((splitOnC '.' domain.data).getLastD []) else ""
    [("length", .i (url.length : ℤ)),
     ("domain_length", .i (domain.length : ℤ)),
     ("path_length", .i (path.length : ℤ)),
     ("num_dots", .i (url.data.count '.' : ℤ)),
     ("num_hyphens", .i (url.data.count '-' : ℤ)),
     ("num_underscores", .i (url.data.count '_' : ℤ)),
     ("num_slashes", .i (url.data.count '/' : ℤ)),
     ("num_questionmarks", .i (url.data.count '?' : ℤ)),
     ("num_equals", .i (url.data.count '=' : ℤ)),
     ("num_at", .i (url.data.count '@' : ℤ)),
     ("num_ampersands", .i (url.data.count '&' : ℤ)),
     ("has_ip", .b (searchGroup ipRgx domain.data).isSome),
     ("num_subdomains", .i (if strContains domain.data "." then
        ((splitOnC '.' domain.data).length : ℤ) - 2 else 0)),
     ("tld", .s tld),
     ("suspicious_tld", .b (suspiciousTlds.contains (String.mk (tld.data.map lowerC)))),
     ("has_punycode", .b (strContains domain.data "xn--")),
     ("has_port", .b (domain.data.contains ':')),
     ("domain_entropy", .r (entropyR domain)),
     ("special_chars", .i ((domain.data.filter
        (fun c => !(c.isAlphanum || c == '.' || c == '-'))).length : ℤ))])

/-- Result record of `URLPhishingDetector.analyze`. -/
structure UrlResult where
  phishing_score : ℚ
  is_phishing : Bool
  reasons : List String
  features : List (String × FVal)

/-- `URLPhishingDetector.analyze`: rule-based additive scoring over the
extracted features, clamped at 1, with threshold 0.6.  Feature reads
are dict accesses and raise `KeyError` on a missing key, in the order
the source reads them; the tld is only read for the suspicious-tld
reason. -/
noncomputable def urlAnalyze (url : String) : Except Unit UrlResult :=
  let features := extractFeatures url
  exBind (getI features "length") (fun len =>
  exBind (getB features "has_ip") (fun hip =>
  exBind (getI features "num_subdomains") (fun nsub =>
  exBind (getI features "num_at") (fun nAt =>
  exBind (getI features "num_hyphens") (fun nhy =>
  exBind (getB features "suspicious_tld") (fun stld =>
    let s1 : ℚ := if len > 75 then 0 + 0.2 else 0
    let r1 : List String := if len > 75 then ["Unusually long URL"] else []
    let s2 := if hip then s1 + 0.3 else s1
    let r2 := r1 ++ if hip then ["URL contains IP address"] else []
    let s3 := if nsub > 3 then s2 + 0.25 else s2
    let r3 := r2 ++ if nsub > 3 then ["Too many subdomains (" ++ toString nsub ++ ")"] else []
    let s4 := if nAt > 0 then s3 + 0.25 else s3
    let r4 := r3 ++ if nAt > 0 then ["URL contains @ symbol (redirect)"] else []
    let s5 := if nhy > 3 then s4 + 0.15 else s4
    let r5 := r4 ++ if nhy > 3 then ["Excessive hyphens in URL"] else []
    exBind (if stld then
        exBind (getS features "tld") (fun tld =>
          .ok (s5 + 0.2, r5 ++ ["Suspicious domain extension: ." ++ tld]))
      else .ok (s5, r5)) (fun sr6 =>
    exBind (getB features "has_punycode") (fun puny =>
    exBind (getR features "domain_entropy") (fun ent =>
      let s7 := if puny then sr6.1 + 0.25 else sr6.1
      let r7 := sr6.2 ++ if puny then ["Punycode detected (possible homograph attack)"] else []
      let s8 := if ent > (4.5 : ℝ) then s7 + 0.2 else s7
      let r8 := r7 ++ if ent > (4.5 : ℝ) then ["Domain appears randomly generated"] else []
      .ok { phishing_score := min s8 1,
            is_phishing := decide (min s8 1 > 0.6),
            reasons := r8,
            features := features })))))))))

/-- The additive scoring formula of the spec, over the feature values. -/
noncomputable def c5SpecScore (len nsub nAt nhy : ℤ) (hip stld puny : Bool) (ent : ℝ) : ℚ :=
  (if len > 75 then 0.2 else 0) + (if hip then 0.3 else 0) + (if nsub > 3 then 0.25 else 0)
  + (if nAt > 0 then 0.25 else 0) + (if nhy > 3 then 0.15 else 0) + (if stld then 0.2 else 0)
  + (if puny then 0.25 else 0) + (if ent > (4.5 : ℝ) then 0.2 else 0)

end ScamDetector

namespace ScamDetector

/-- C1: on the bundle whose only present signals are financialIntent = 0.6
and urlPhishing = 0.8, calculate returns riskScore 0.884 (the weighted
average (0.6·0.30 + 0.8·0.20)/0.50 = 0.68 amplified by 1.3 and clamped at
1.0) and risk level high. -/
theorem c1_fuse_example :
    ∃ r, riskCalculate [("financialIntent", some 0.6), ("urlPhishing", some 0.8)] = .ok r
      ∧ r.risk_score = 0.884 ∧ r.risk_level = "high" := by
  refine ⟨{ risk_score := 0.884, risk_level := "high",
            explanation := "⚠️ HIGH RISK - DO NOT PROCEED. The URL shows strong phishing indicators. We strongly recommend leaving this website.",
            confidence := 2/5 }, ?_, rfl, rfl⟩
  simp [riskCalculate, riskCalculateW, weightedFold, getSignal, getNum, dictFind,
    riskPost, genExplanation, countNonNone, weights0]
  norm_num [min_def]

/-- C6: on the bundle in which every one of the five signal names is
present but mapped to None — the dict `app.py` builds when all request
fields are omitted — calculate does not return the claimed Low verdict:
`signals.get('financialIntent', 0)` returns the stored None and the
comparison `None > 0.5` raises a TypeError, modelled as `Except.error`. -/
theorem c6_all_none_bundle_raises :
    riskCalculate [("websiteTrust", none), ("urlPhishing", none), ("financialIntent", none),
                   ("otpMisuse", none), ("upiScam", none)] = .error () := by
  simp [riskCalculate, riskCalculateW, weightedFold, getSignal, getNum, dictFind,
    riskPost, weights0]

/-- C2: a bundle mapping each of the five signal names to None or to a
float in the unit interval on which calculate returns no riskScore and
no confidence at all: financialIntent is None, and the amplification
comparison raises a TypeError before any result is produced. -/
theorem c2_unit_bundle_raises :
    riskCalculate [("websiteTrust", some 0.5), ("urlPhishing", some 0.5),
                   ("financialIntent", none), ("otpMisuse", some 0.5), ("upiScam", some 0.5)]
      = .error () := by
  simp [riskCalculate, riskCalculateW, weightedFold, getSignal, getNum, dictFind,
    riskPost, weights0]

/-- C10: calculate computes confidence as the number of non-None values
of the input dict — under any key, not only the five weighted names —
divided by the five weights; a dict carrying a sixth non-None entry
therefore gets confidence 6/5 > 1. -/
theorem c10_confidence_counts_any_key :
    (∀ (s : SignalDict) (r : RiskResult), riskCalculate s = .ok r →
        r.confidence = (countNonNone s : ℚ) / 5)
    ∧ (∃ r, riskCalculate
          [("websiteTrust", some 0.5), ("urlPhishing", some 0.5), ("financialIntent", some 0.5),
           ("otpMisuse", some 0.5), ("upiScam", some 0.5), ("extraSignal", some 0.5)] = .ok r
        ∧ 1 < r.confidence) := by
  constructor
  · intro s r h
    simp only [riskCalculate, riskCalculateW, riskPost] at h
    rw [exBind_eq_ok_iff] at h
    obtain ⟨fi, hfi, h⟩ := h
    rw [exBind_eq_ok_iff] at h
    obtain ⟨le, hle, h⟩ := h
    simp only [Except.ok.injEq] at h
    subst h
    simp [weights0]
  · refine ⟨{ risk_score := 0.5, risk_level := "medium",
              explanation := "⚠️ CAUTION ADVISED. Verify the website authenticity before proceeding.",
              confidence := 6/5 }, ?_, by norm_num⟩
    simp [riskCalculate, riskCalculateW, weightedFold, getSignal, getNum, dictFind,
      riskPost, genExplanation, countNonNone, weights0]
    norm_num [min_def]

/-- C9 counterexample: a resolved WHOIS record whose creation timestamp
lies one day in the future gives ageDays = -1 together with isNew = true,
contradicting the claimed equivalence isNew ↔ (ageDays ≥ 0 ∧ ageDays < 90). -/
theorem c9_future_creation_counterexample :
    (checkAge 0 (some { creation_date := .ts 86400, registrar := none })).is_new = true
    ∧ (checkAge 0 (some { creation_date := .ts 86400, registrar := none })).age_days < 0 := by
  constructor <;> decide

/-- C9 amended: check_age returns isNew = true iff a usable creation
timestamp is present and ageDays < 90 (the code does not require
ageDays ≥ 0); with no creation timestamp, an empty list of timestamps
or a failed lookup it returns the default record
(ageDays -1, isNew false, null registration date and registrar). -/
theorem c9_check_age_amended :
    ∀ (now : ℤ) (w : Option WhoisRec),
      ((checkAge now w).is_new = true
        ↔ hasCreation w = true ∧ (checkAge now w).age_days < 90)
      ∧ (hasCreation w = false → checkAge now w = defaultAgeRes) := by
  intro now w
  match w with
  | none => simp [checkAge, hasCreation, defaultAgeRes]
  | some rcd =>
    match hcd : rcd.creation_date with
    | .missing => simp [checkAge, hasCreation, firstCreation, defaultAgeRes, hcd]
    | .ts t => simp [checkAge, hasCreation, firstCreation, hcd]
    | .many [] => simp [checkAge, hasCreation, firstCreation, defaultAgeRes, hcd]
    | .many (t :: l) => simp [checkAge, hasCreation, firstCreation, hcd]

/-- Scaling every weight multiplies both fold accumulators by the same
constant. -/
theorem weightedFold_scale (ws : List (String × ℚ)) (signals : SignalDict) (c ts tw : ℚ) :
    weightedFold (scaleWeights c ws) signals (c * ts, c * tw)
      = (c * (weightedFold ws signals (ts, tw)).1, c * (weightedFold ws signals (ts, tw)).2) := by
  induction ws generalizing ts tw with
  | nil => simp [weightedFold, scaleWeights]
  | cons p rest ih =>
    obtain ⟨name, w⟩ := p
    simp only [scaleWeights, List.map_cons, weightedFold]
    cases getSignal signals name with
    | none =>
      simpa [scaleWeights] using ih ts tw
    | some v =>
      simp only [optCase_some]
      have h1 : c * ts + (if name = "websiteTrust" then 1 - v else v) * (c * w)
          = c * (ts + (if name = "websiteTrust" then 1 - v else v) * w) := by ring
      have h2 : c * tw + c * w = c * (tw + w) := by ring
      rw [h1, h2]
      simpa [scaleWeights] using ih (ts + (if name = "websiteTrust" then 1 - v else v) * w) (tw + w)

/-- C8: calculate is invariant under rescaling the whole weight table by
a positive constant: with every weight multiplied by c > 0 it returns
the same result (in particular the same riskScore) on every signal
dict. -/
theorem c8_weight_rescaling_invariant :
    ∀ (c : ℚ), 0 < c → ∀ (signals : SignalDict),
      riskCalculateW (scaleWeights c weights0) signals = riskCalculate signals := by
  intro c hc signals
  simp only [riskCalculate, riskCalculateW]
  have hfold := weightedFold_scale weights0 signals c 0 0
  rw [mul_zero] at hfold
  rw [hfold]
  have hlen : (scaleWeights c weights0).length = weights0.length := by
    simp [scaleWeights]
  rw [hlen]
  have hbase :
      (if ((c * (weightedFold weights0 signals (0, 0)).1,
            c * (weightedFold weights0 signals (0, 0)).2)).2 > 0 then
          ((c * (weightedFold weights0 signals (0, 0)).1,
            c * (weightedFold weights0 signals (0, 0)).2)).1 /
          ((c * (weightedFold weights0 signals (0, 0)).1,
            c * (weightedFold weights0 signals (0, 0)).2)).2
        else 0)
      = (if (weightedFold weights0 signals (0, 0)).2 > 0 then
            (weightedFold weights0 signals (0, 0)).1 / (weightedFold weights0 signals (0, 0)).2
          else 0) := by
    have hiff : (0 < c * (weightedFold weights0 signals (0, 0)).2)
        ↔ (0 < (weightedFold weights0 signals (0, 0)).2) := by
      constructor
      · intro h
        by_contra hle
        push_neg at hle
        nlinarith
      · intro h
        exact mul_pos hc h
    simp only [gt_iff_lt]
    rw [if_congr hiff rfl rfl]
    split_ifs with h
    · exact mul_div_mul_left _ _ (ne_of_gt hc)
    · rfl
  rw [hbase]

/-- C8 witness at the concrete constant 2 and a one-signal dict. -/
theorem c8_weight_rescaling_invariant_witness :
    riskCalculateW (scaleWeights 2 weights0) [("upiScam", some (9/10))]
      = riskCalculate [("upiScam", some (9/10))] :=
  c8_weight_rescaling_invariant 2 (by norm_num) [("upiScam", some (9/10))]

set_option maxHeartbeats 2000000 in
/-- The signal loop on a realized bundle accumulates exactly the
bundle's total score and total weight. -/
theorem fold_toDict (b : SB) :
    weightedFold weights0 (SB.toDict b) (0, 0) = (SB.tscore b, SB.tweight b) := by
  obtain ⟨wt, up, fi, om, us⟩ := b
  cases wt <;> cases up <;> cases fi <;> cases om <;> cases us <;>
    simp [weightedFold, getSignal, dictFind, SB.toDict, SB.tscore, SB.tweight, weights0]

/-- Reading financialIntent from a realized bundle never raises and
yields the stored value or the missing-key default 0. -/
theorem getNumFi_toDict (b : SB) :
    getNum (SB.toDict b) "financialIntent" = .ok (optCase b.fi 0 (fun q => q)) := by
  obtain ⟨wt, up, fi, om, us⟩ := b
  cases wt <;> cases up <;> cases fi <;> cases om <;> cases us <;>
    simp [getNum, dictFind, SB.toDict]

/-- Reading upiScam from a realized bundle never raises. -/
theorem getNumUpi_toDict (b : SB) :
    getNum (SB.toDict b) "upiScam" = .ok (optCase b.us 0 (fun q => q)) := by
  obtain ⟨wt, up, fi, om, us⟩ := b
  cases wt <;> cases up <;> cases fi <;> cases om <;> cases us <;>
    simp [getNum, dictFind, SB.toDict]

/-- Reading otpMisuse from a realized bundle never raises. -/
theorem getNumOtp_toDict (b : SB) :
    getNum (SB.toDict b) "otpMisuse" = .ok (optCase b.om 0 (fun q => q)) := by
  obtain ⟨wt, up, fi, om, us⟩ := b
  cases wt <;> cases up <;> cases fi <;> cases om <;> cases us <;>
    simp [getNum, dictFind, SB.toDict]

/-- Reading urlPhishing from a realized bundle never raises. -/
theorem getNumUrl_toDict (b : SB) :
    getNum (SB.toDict b) "urlPhishing" = .ok (optCase b.up 0 (fun q => q)) := by
  obtain ⟨wt, up, fi, om, us⟩ := b
  cases wt <;> cases up <;> cases fi <;> cases om <;> cases us <;>
    simp [getNum, dictFind, SB.toDict]

/-- Explanation generation never raises on a realized bundle. -/
theorem genExpl_toDict_ok (lvl : String) (b : SB) :
    ∃ e, genExplanation lvl (SB.toDict b) = .ok e := by
  unfold genExplanation
  split_ifs with h1 h2
  · rw [getNumUpi_toDict]
    simp only [exBind_ok]
    split_ifs with hu
    · exact ⟨_, rfl⟩
    · rw [getNumOtp_toDict]
      simp only [exBind_ok]
      split_ifs with ho
      · exact ⟨_, rfl⟩
      · rw [getNumUrl_toDict]
        simp only [exBind_ok]
        split_ifs with hl
        · exact ⟨_, rfl⟩
        · exact ⟨_, rfl⟩
  · rw [getNumFi_toDict]
    simp only [exBind_ok]
    split_ifs <;> exact ⟨_, rfl⟩
  · exact ⟨_, rfl⟩

/-- calculate succeeds on every realized bundle and returns the
bundle's score. -/
theorem calc_toDict (b : SB) :
    ∃ r, riskCalculate (SB.toDict b) = .ok r ∧ r.risk_score = SB.score b := by
  simp only [riskCalculate, riskCalculateW, riskPost]
  rw [fold_toDict, getNumFi_toDict]
  simp only [exBind_ok]
  have hb1 : (if SB.tweight b > 0 then SB.tscore b / SB.tweight b else 0) = SB.base b := rfl
  rw [hb1]
  have hb2 : (if optCase b.fi 0 (fun q => q) > 0.5 then min (SB.base b * 1.3) 1 else SB.base b)
      = SB.score b := rfl
  rw [hb2]
  obtain ⟨eh, heh⟩ := genExpl_toDict_ok "high" b
  obtain ⟨em, hem⟩ := genExpl_toDict_ok "medium" b
  rw [heh, hem]
  split_ifs with h1 h2 <;>
    simp only [exBind_ok] <;>
    exact ⟨_, rfl, rfl⟩

/-- A present-value term built from a unit-interval value is bounded
below by zero when its shape function is. -/
theorem optTerm_nonneg (o : Option ℚ) (g : ℚ → ℚ) (ho : okv o)
    (h : ∀ v, 0 ≤ v → v ≤ 1 → 0 ≤ g v) : 0 ≤ optCase o 0 g := by
  cases o with
  | none => simp
  | some v =>
    simp only [optCase_some]
    simp only [okv, optCase_some] at ho
    exact h v ho.1 ho.2

/-- Pointwise comparison of present-value terms. -/
theorem optTerm_le (o : Option ℚ) (g g' : ℚ → ℚ) (ho : okv o)
    (h : ∀ v, 0 ≤ v → v ≤ 1 → g v ≤ g' v) : optCase o 0 g ≤ optCase o 0 g' := by
  cases o with
  | none => simp
  | some v =>
    simp only [optCase_some]
    simp only [okv, optCase_some] at ho
    exact h v ho.1 ho.2

/-- The accumulated total score of an in-range bundle is nonnegative. -/
theorem tscore_nonneg (b : SB) (hb : SBok b) : 0 ≤ SB.tscore b := by
  obtain ⟨h1, h2, h3, h4, h5⟩ := hb
  unfold SB.tscore
  have t1 := optTerm_nonneg b.wt (fun v => (1 - v) * 0.25) h1 (fun v hv0 hv1 => by nlinarith)
  have t2 := optTerm_nonneg b.up (fun v => v * 0.20) h2 (fun v hv0 hv1 => by nlinarith)
  have t3 := optTerm_nonneg b.fi (fun v => v * 0.30) h3 (fun v hv0 hv1 => by nlinarith)
  have t4 := optTerm_nonneg b.om (fun v => v * 0.15) h4 (fun v hv0 hv1 => by nlinarith)
  have t5 := optTerm_nonneg b.us (fun v => v * 0.10) h5 (fun v hv0 hv1 => by nlinarith)
  linarith

/-- The accumulated total score of an in-range bundle is at most the
accumulated total weight. -/
theorem tscore_le_tweight (b : SB) (hb : SBok b) : SB.tscore b ≤ SB.tweight b := by
  obtain ⟨h1, h2, h3, h4, h5⟩ := hb
  unfold SB.tscore SB.tweight
  have t1 := optTerm_le b.wt (fun v => (1 - v) * 0.25) (fun _ => (0.25 : ℚ)) h1
    (fun v hv0 hv1 => by nlinarith)
  have t2 := optTerm_le b.up (fun v => v * 0.20) (fun _ => (0.20 : ℚ)) h2 (fun v hv0 hv1 => by nlinarith)
  have t3 := optTerm_le b.fi (fun v => v * 0.30) (fun _ => (0.30 : ℚ)) h3 (fun v hv0 hv1 => by nlinarith)
  have t4 := optTerm_le b.om (fun v => v * 0.15) (fun _ => (0.15 : ℚ)) h4 (fun v hv0 hv1 => by nlinarith)
  have t5 := optTerm_le b.us (fun v => v * 0.10) (fun _ => (0.10 : ℚ)) h5 (fun v hv0 hv1 => by nlinarith)
  linarith

/-- The guarded weighted average of an in-range bundle lies in the unit
interval. -/
theorem base_mem (b : SB) (hb : SBok b) : 0 ≤ SB.base b ∧ SB.base b ≤ 1 := by
  unfold SB.base
  split_ifs with h
  · exact ⟨div_nonneg (tscore_nonneg b hb) (le_of_lt h),
      by rw [div_le_one h]; exact tscore_le_tweight b hb⟩
  · norm_num

/-- Replacing the value of a present signal leaves the total weight
unchanged. -/
theorem tweight_set (b : SB) (n : Sig) (v v' : ℚ) (hget : SB.getSig n b = some v) :
    SB.tweight (SB.setSig n v' b) = SB.tweight b := by
  cases n <;>
    (simp only [SB.getSig] at hget; simp [SB.setSig, SB.tweight, hget])

/-- Replacing the value of a present signal by one with a larger
normalized value does not decrease the total score. -/
theorem tscore_set_mono (b : SB) (n : Sig) (v v' : ℚ) (hget : SB.getSig n b = some v)
    (hn : normSig n v ≤ normSig n v') :
    SB.tscore b ≤ SB.tscore (SB.setSig n v' b) := by
  cases n <;>
    (simp only [SB.getSig] at hget
     simp only [normSig] at hn
     simp [SB.setSig, SB.tscore, hget]
     linarith)

/-- Updating a signal with a unit-interval value preserves bundle
range. -/
theorem SBok_set (b : SB) (hb : SBok b) (n : Sig) (v' : ℚ) (h0 : 0 ≤ v') (h1 : v' ≤ 1) :
    SBok (SB.setSig n v' b) := by
  obtain ⟨b1, b2, b3, b4, b5⟩ := hb
  cases n <;> simp_all [SBok, SB.setSig, okv]

/-- Monotonicity of the bundle score in any single present signal's
normalized value. -/
theorem score_mono (b : SB) (n : Sig) (v v' : ℚ) (hb : SBok b)
    (hget : SB.getSig n b = some v) (h0 : 0 ≤ v') (h1 : v' ≤ 1)
    (hn : normSig n v ≤ normSig n v') :
    SB.score b ≤ SB.score (SB.setSig n v' b) := by
  have htw := tweight_set b n v v' hget
  have hts := tscore_set_mono b n v v' hget hn
  have hbk := SBok_set b hb n v' h0 h1
  have hbase : SB.base b ≤ SB.base (SB.setSig n v' b) := by
    unfold SB.base
    rw [htw]
    split_ifs with h
    · exact (div_le_div_iff_of_pos_right h).mpr hts
    · exact le_refl 0
  have hbase0 : 0 ≤ SB.base b := (base_mem b hb).1
  have hbase0' : 0 ≤ SB.base (SB.setSig n v' b) := (base_mem _ hbk).1
  have hbase1' : SB.base (SB.setSig n v' b) ≤ 1 := (base_mem _ hbk).2
  have hcommon : (SB.setSig n v' b).fi = b.fi → SB.score b ≤ SB.score (SB.setSig n v' b) := by
    intro hfieq
    unfold SB.score
    rw [hfieq]
    split_ifs with hc
    · exact min_le_min (by linarith) le_rfl
    · exact hbase
  cases n with
  | wt => exact hcommon (by simp [SB.setSig])
  | up => exact hcommon (by simp [SB.setSig])
  | om => exact hcommon (by simp [SB.setSig])
  | us => exact hcommon (by simp [SB.setSig])
  | fi =>
    have hv : optCase b.fi 0 (fun q => q) = v := by
      simp only [SB.getSig] at hget
      rw [hget]
      rfl
    have hv' : optCase (SB.setSig .fi v' b).fi 0 (fun q => q) = v' := by
      simp [SB.setSig]
    have hvv' : v ≤ v' := by simpa [normSig] using hn
    unfold SB.score
    rw [hv, hv']
    by_cases hcv : v > 0.5 <;> by_cases hcv' : v' > 0.5
    · rw [if_pos hcv, if_pos hcv']
      exact min_le_min (by linarith) le_rfl
    · exact absurd (lt_of_lt_of_le hcv hvv') hcv'
    · rw [if_neg hcv, if_pos hcv']
      exact le_min (by linarith) (by linarith)
    · rw [if_neg hcv, if_neg hcv']
      exact hbase

/-- C7: fusion is monotone.  For every bundle of unit-interval signals
and every present signal, replacing that signal's value by one with a
greater-or-equal normalized value (1 - value for websiteTrust, the
value itself otherwise), all other signals fixed, never decreases the
riskScore returned by calculate. -/
theorem c7_fusion_monotone :
    ∀ (b : SB) (n : Sig) (v v' : ℚ), SBok b → SB.getSig n b = some v →
      0 ≤ v' → v' ≤ 1 → normSig n v ≤ normSig n v' →
      ∀ r r', riskCalculate (SB.toDict b) = .ok r →
        riskCalculate (SB.toDict (SB.setSig n v' b)) = .ok r' →
        r.risk_score ≤ r'.risk_score := by
  intro b n v v' hb hget h0 h1 hn r r' hr hr'
  obtain ⟨r0, h0r, hs0⟩ := calc_toDict b
  obtain ⟨r1, h1r, hs1⟩ := calc_toDict (SB.setSig n v' b)
  rw [h0r] at hr
  rw [h1r] at hr'
  injection hr with hr
  injection hr' with hr'
  rw [← hr, ← hr', hs0, hs1]
  exact score_mono b n v v' hb hget h0 h1 hn

/-- C7 witness: raising financialIntent from 1/4 to 3/4 on the bundle
whose only present signal is financialIntent raises the returned
riskScore from 1/4 to 39/40. -/
theorem c7_fusion_monotone_witness :
    ({ risk_score := 1/4, risk_level := "low",
       explanation := "This page appears safe based on our analysis.",
       confidence := 1/5 } : RiskResult).risk_score
    ≤ ({ risk_score := 39/40, risk_level := "high",
         explanation := "⚠️ HIGH RISK - DO NOT PROCEED. We strongly recommend leaving this website.",
         confidence := 1/5 } : RiskResult).risk_score :=
  c7_fusion_monotone { wt := none, up := none, fi := some (1/4), om := none, us := none }
    .fi (1/4) (3/4)
    (by simp [SBok, okv]; norm_num)
    (by simp [SB.getSig])
    (by norm_num) (by norm_num)
    (by simp [normSig]; norm_num)
    _ _
    (by simp [SB.toDict, riskCalculate, riskCalculateW, weightedFold, getSignal, getNum,
          dictFind, riskPost, genExplanation, countNonNone, weights0]
        norm_num [min_def])
    (by simp [SB.toDict, SB.setSig, riskCalculate, riskCalculateW, weightedFold, getSignal,
          getNum, dictFind, riskPost, genExplanation, countNonNone, weights0]
        norm_num [min_def])

/-- C4 counterexample: on the email with subject "URGENT: your account
will be suspended" and empty body, no sender domain and no ML opinion,
analyze returns a phishing score below 0.5 and isPhishing = false —
not, as claimed, a score of at least 0.5 with isPhishing = true. -/
theorem c4_email_example_counterexample :
    (emailAnalyze "URGENT: your account will be suspended" "" none none).phishing_score < 0.5
    ∧ (emailAnalyze "URGENT: your account will be suspended" "" none none).is_phishing = false := by
  have htext : ("URGENT: your account will be suspended" ++ " " ++ "").data.map lowerC
      = "urgent: your account will be suspended ".data := by decide
  have hu : findPatterns ("urgent: your account will be suspended ".data) urgencyPatterns
      = ["urgent", "account will be suspended"] := by decide
  have hf : findPatterns ("urgent: your account will be suspended ".data) fearPatterns
      = [] := by decide
  have hr : findPatterns ("urgent: your account will be suspended ".data) rewardPatterns
      = [] := by decide
  have hk : bankKeywords.filter (fun kw =>
      strContains ("urgent: your account will be suspended ".data) kw) = ["account"] := by decide
  simp only [emailAnalyze]
  rw [htext, hu, hf, hr, hk]
  simp
  norm_num [min_def]

/-- C4 amended: on that email, analyze finds two urgency matches
("urgent", and "account will be suspended" — via the urgency pattern
for account-suspension phrasing, +0.3) and the financial keyword
"account" (+0.15), but no fear match at all (the fear list has no
"suspended" pattern), giving phishing_score 0.45 and
isPhishing = false. -/
theorem c4_email_example_amended :
    (emailAnalyze "URGENT: your account will be suspended" "" none none).urgency
        = ["urgent", "account will be suspended"]
    ∧ (emailAnalyze "URGENT: your account will be suspended" "" none none).fear = []
    ∧ (emailAnalyze "URGENT: your account will be suspended" "" none none).financial = ["account"]
    ∧ (emailAnalyze "URGENT: your account will be suspended" "" none none).phishing_score = 0.45
    ∧ (emailAnalyze "URGENT: your account will be suspended" "" none none).is_phishing = false := by
  have htext : ("URGENT: your account will be suspended" ++ " " ++ "").data.map lowerC
      = "urgent: your account will be suspended ".data := by decide
  have hu : findPatterns ("urgent: your account will be suspended ".data) urgencyPatterns
      = ["urgent", "account will be suspended"] := by decide
  have hf : findPatterns ("urgent: your account will be suspended ".data) fearPatterns
      = [] := by decide
  have hr : findPatterns ("urgent: your account will be suspended ".data) rewardPatterns
      = [] := by decide
  have hk : bankKeywords.filter (fun kw =>
      strContains ("urgent: your account will be suspended ".data) kw) = ["account"] := by decide
  simp only [emailAnalyze]
  rw [htext, hu, hf, hr, hk]
  simp
  norm_num [min_def]

theorem if_add_split (c : Prop) [Decidable c] (s v : ℚ) :
    (if c then s + v else s) = s + (if c then v else 0) := by
  split_ifs <;> simp

theorem getF_len (url domain path : String) (hp : urlparseNP url = .ok (domain, path)) :
    getI (extractFeatures url) "length" = .ok (url.length : ℤ) := by
  simp only [extractFeatures, hp, exCase_ok]
  simp [getI, lookupF, fvalI]

theorem getF_hip (url domain path : String) (hp : urlparseNP url = .ok (domain, path)) :
    getB (extractFeatures url) "has_ip" = .ok (searchGroup ipRgx domain.data).isSome := by
  simp only [extractFeatures, hp, exCase_ok]
  simp [getB, lookupF, fvalB]

theorem getF_nsub (url domain path : String) (hp : urlparseNP url = .ok (domain, path)) :
    getI (extractFeatures url) "num_subdomains"
      = .ok (if strContains domain.data "." then ((splitOnC '.' domain.data).length : ℤ) - 2
          else 0) := by
  simp only [extractFeatures, hp, exCase_ok]
  simp [getI, lookupF, fvalI]

theorem getF_nat (url domain path : String) (hp : urlparseNP url = .ok (domain, path)) :
    getI (extractFeatures url) "num_at" = .ok (url.data.count '@' : ℤ) := by
  simp only [extractFeatures, hp, exCase_ok]
  simp [getI, lookupF, fvalI]

theorem getF_nhy (url domain path : String) (hp : urlparseNP url = .ok (domain, path)) :
    getI (extractFeatures url) "num_hyphens" = .ok (url.data.count '-' : ℤ) := by
  simp only [extractFeatures, hp, exCase_ok]
  simp [getI, lookupF, fvalI]

theorem getF_stld (url domain path : String) (hp : urlparseNP url = .ok (domain, path)) :
    getB (extractFeatures url) "suspicious_tld"
      = .ok (suspiciousTlds.contains (String.mk
          ((if strContains domain.data "." then String.mk ((splitOnC '.' domain.data).getLastD [])
            else "").data.map lowerC))) := by
  simp only [extractFeatures, hp, exCase_ok]
  simp [getB, lookupF, fvalB]

theorem getF_tld (url domain path : String) (hp : urlparseNP url = .ok (domain, path)) :
    getS (extractFeatures url) "tld"
      = .ok (if strContains domain.data "." then String.mk ((splitOnC '.' domain.data).getLastD [])
          else "") := by
  simp only [extractFeatures, hp, exCase_ok]
  simp [getS, lookupF, fvalS]

theorem getF_puny (url domain path : String) (hp : urlparseNP url = .ok (domain, path)) :
    getB (extractFeatures url) "has_punycode" = .ok (strContains domain.data "xn--") := by
  simp only [extractFeatures, hp, exCase_ok]
  simp [getB, lookupF, fvalB]

theorem getF_ent (url domain path : String) (hp : urlparseNP url = .ok (domain, path)) :
    getR (extractFeatures url) "domain_entropy" = .ok (entropyR domain) := by
  simp only [extractFeatures, hp, exCase_ok]
  simp [getR, lookupF, fvalR]

theorem urlAnalyze_ok_formula (url domain path : String)
    (hp : urlparseNP url = .ok (domain, path)) :
    ∃ r, urlAnalyze url = .ok r
      ∧ r.phishing_score = min (c5SpecScore (url.length : ℤ)
            (if strContains domain.data "." then ((splitOnC '.' domain.data).length : ℤ) - 2
              else 0)
            (url.data.count '@' : ℤ) (url.data.count '-' : ℤ)
            (searchGroup ipRgx domain.data).isSome
            (suspiciousTlds.contains (String.mk
              ((if strContains domain.data "." then
                String.mk ((splitOnC '.' domain.data).getLastD []) else "").data.map lowerC)))
            (strContains domain.data "xn--")
            (entropyR domain)) 1
      ∧ (r.is_phishing = true ↔ r.phishing_score > 0.6) := by
  simp only [urlAnalyze]
  rw [getF_len url domain path hp, getF_hip url domain path hp, getF_nsub url domain path hp,
    getF_nat url domain path hp, getF_nhy url domain path hp, getF_stld url domain path hp,
    getF_puny url domain path hp, getF_ent url domain path hp]
  simp only [exBind_ok]
  cases hs : suspiciousTlds.contains (String.mk
      ((if strContains domain.data "." then
        String.mk ((splitOnC '.' domain.data).getLastD []) else "").data.map lowerC)) with
  | false =>
    simp only [Bool.false_eq_true, if_false, exBind_ok]
    refine ⟨_, rfl, ?_, by simp⟩
    simp only [c5SpecScore, hs, Bool.false_eq_true, if_false]
    congr 1
    simp only [if_add_split]
    ring
  | true =>
    simp only [if_true, exBind_ok]
    rw [getF_tld url domain path hp]
    simp only [exBind_ok]
    refine ⟨_, rfl, ?_, by simp⟩
    simp only [c5SpecScore, hs, if_true]
    congr 1
    simp only [if_add_split]
    ring

/-- A frequency of at least 1/16 contributes at most four bits per
occurrence to the entropy sum. -/
theorem negMulLogb_le (p : ℝ) (hp : 0 < p) (hple : (1:ℝ)/16 ≤ p) :
    -(p * Real.logb 2 p) ≤ p * 4 := by
  have hinv : p⁻¹ ≤ 16 := by
    rw [inv_eq_one_div, div_le_iff₀ hp]
    linarith
  have h1 : Real.logb 2 p⁻¹ ≤ Real.logb 2 16 :=
    Real.logb_le_logb_of_le (by norm_num) (by positivity) hinv
  have h2 : Real.logb 2 16 = 4 := by
    rw [show (16:ℝ) = 2 ^ (4:ℕ) by norm_num, Real.logb_pow,
      Real.logb_self_eq_one (by norm_num)]
    norm_num
  have h3 : -(p * Real.logb 2 p) = p * Real.logb 2 p⁻¹ := by
    rw [Real.logb_inv]; ring
  rw [h3]
  exact mul_le_mul_of_nonneg_left (h1.trans_eq h2) hp.le

/-- The dotted-quad host has entropy below the 4.5 threshold: each of
its character frequencies is at least 1/11 > 1/16, so every term of the
entropy sum is at most four times the frequency. -/
theorem entropy_ip_lt : entropyR "192.168.1.1" < 4.5 := by
  have hd : ("192.168.1.1".data).dedup = ['9', '2', '6', '8', '.', '1'] := by decide
  have h9 : ("192.168.1.1".data).count '9' = 1 := by decide
  have h2c : ("192.168.1.1".data).count '2' = 1 := by decide
  have h6 : ("192.168.1.1".data).count '6' = 1 := by decide
  have h8 : ("192.168.1.1".data).count '8' = 1 := by decide
  have hdot : ("192.168.1.1".data).count '.' = 3 := by decide
  have h1c : ("192.168.1.1".data).count '1' = 4 := by decide
  have hlen : ("192.168.1.1".data).length = 11 := by decide
  have hne : ¬ ("192.168.1.1".data = []) := by decide
  unfold entropyR
  rw [if_neg hne, hd]
  simp only [List.map_cons, List.map_nil, List.sum_cons, List.sum_nil,
    h9, h2c, h6, h8, hdot, h1c, hlen]
  push_cast
  have b1 := negMulLogb_le ((1:ℝ)/11) (by norm_num) (by norm_num)
  have b3 := negMulLogb_le ((3:ℝ)/11) (by norm_num) (by norm_num)
  have b4 := negMulLogb_le ((4:ℝ)/11) (by norm_num) (by norm_num)
  linarith

/-- C3: feature extraction is not total towards analyze.  On the
malformed URL "http://[" (urlparse raises Invalid IPv6 URL), the
extraction handler returns the five-key default record, which lacks
the num_subdomains key that analyze reads, so analyze raises a
KeyError to its caller instead of returning a result. -/
theorem c3_default_record_partial :
    lookupF (extractFeatures "http://[") "num_subdomains" = none
    ∧ urlAnalyze "http://[" = .error () := by
  have hparse : urlparseNP "http://[" = .error () := rfl
  constructor
  · simp [extractFeatures, hparse, defaultFeatures, lookupF]
  · simp [urlAnalyze, extractFeatures, hparse, defaultFeatures, getI, getB, getR, getS,
      lookupF, fvalI, fvalB]

/-- C5: with no ML model (the shipped detector never loads one),
analyze computes phishing_score as the clamped sum of exactly the eight
additive terms over the extracted features, and isPhishing holds iff
the score exceeds 0.6; on "http://192.168.1.1/login?x=1" only the
hasIp term fires, giving score 0.3 and isPhishing = false. -/
theorem c5_url_additive_scoring :
    (∀ (url domain path : String), urlparseNP url = .ok (domain, path) →
      ∃ r, urlAnalyze url = .ok r
        ∧ r.phishing_score = min (c5SpecScore (url.length : ℤ)
              (if strContains domain.data "." then ((splitOnC '.' domain.data).length : ℤ) - 2
                else 0)
              (url.data.count '@' : ℤ) (url.data.count '-' : ℤ)
              (searchGroup ipRgx domain.data).isSome
              (suspiciousTlds.contains (String.mk
                ((if strContains domain.data "." then
                  String.mk ((splitOnC '.' domain.data).getLastD []) else "").data.map lowerC)))
              (strContains domain.data "xn--")
              (entropyR domain)) 1
        ∧ (r.is_phishing = true ↔ r.phishing_score > 0.6))
    ∧ (∃ r, urlAnalyze "http://192.168.1.1/login?x=1" = .ok r
        ∧ r.phishing_score = 0.3 ∧ r.is_phishing = false) := by
  constructor
  · exact urlAnalyze_ok_formula
  · obtain ⟨r, hr, hsc, hiff⟩ :=
      urlAnalyze_ok_formula "http://192.168.1.1/login?x=1" "192.168.1.1" "/login" rfl
    have hlen : ¬ ((("http://192.168.1.1/login?x=1" : String).length : ℤ) > 75) := by decide
    have hip : (searchGroup ipRgx ("192.168.1.1" : String).data).isSome = true := by decide
    have hnsub : ¬ ((if strContains ("192.168.1.1" : String).data "." then
        ((splitOnC '.' ("192.168.1.1" : String).data).length : ℤ) - 2 else 0) > 3) := by decide
    have hnat : ¬ ((("http://192.168.1.1/login?x=1" : String).data.count '@' : ℤ) > 0) := by
      decide
    have hnhy : ¬ ((("http://192.168.1.1/login?x=1" : String).data.count '-' : ℤ) > 3) := by
      decide
    have hstld : suspiciousTlds.contains (String.mk
        ((if strContains ("192.168.1.1" : String).data "." then
          String.mk ((splitOnC '.' ("192.168.1.1" : String).data).getLastD []) else
          "").data.map lowerC)) = false := by decide
    have hpuny : strContains ("192.168.1.1" : String).data "xn--" = false := by decide
    have hent : ¬ (entropyR "192.168.1.1" > (4.5 : ℝ)) := not_lt.mpr (le_of_lt entropy_ip_lt)
    have hscore : r.phishing_score = 0.3 := by
      rw [hsc]
      simp only [c5SpecScore, hstld, hpuny, hip, Bool.false_eq_true, if_false, if_true]
      rw [if_neg hlen, if_neg hnsub, if_neg hnat, if_neg hnhy, if_neg hent]
      norm_num [min_def]
    refine ⟨r, hr, hscore, ?_⟩
    rcases hb : r.is_phishing with _ | _
    · rfl
    · exfalso
      have hgt := hiff.mp hb
      rw [hscore] at hgt
      norm_num at hgt

end ScamDetector
